import Mathlib

/-!
Shallow embedding of the server-side core of the `ai-hero` day-1 app:
the rate-limiting queries (`canUserMakeRequest`, `getUserRequestCountToday`,
`isUserAdmin`), the chat persistence queries (`upsertChat`, `getChat`) from
`src/server/db/queries.ts`, the stream registry (`appendStreamId`,
`getStreamIds`), and the Redis memoization wrapper used by
`app/api/chat/route.ts`. The durable store is modelled as an explicit record
of tables; every query becomes a pure function over it, and fallible queries
return `Except`. The `db.transaction` block of `upsertChat` is modelled with
commit-on-success / rollback-on-error semantics: an `Except.error` result
produces no new store, so a reader keeps seeing the pre-transaction store.
-/

namespace AiHero

/-- A local-time instant: a day index plus milliseconds within the day.
`new Date()` followed by `setHours(0, 0, 0, 0)` becomes setting `msOfDay`
to `0`, which is exactly the local midnight of that day. -/
structure LocalInstant where
  day : Nat
  msOfDay : Nat
deriving DecidableEq

/-- The comparison behind the `gte(userRequests.requestDate, today)` filter. -/
def LocalInstant.le (a b : LocalInstant) : Bool :=
  decide (a.day < b.day) || (a.day == b.day && decide (a.msOfDay ≤ b.msOfDay))

/-- Strict comparison on local instants. -/
def LocalInstant.lt (a b : LocalInstant) : Bool :=
  decide (a.day < b.day) || (a.day == b.day && decide (a.msOfDay < b.msOfDay))

/-- Row of the `users` table. -/
structure UserRow where
  id : String
  isAdmin : Bool
deriving DecidableEq

/-- Row of the `user_requests` table. -/
structure UserRequestRow where
  userId : String
  endpoint : String
  requestDate : LocalInstant
deriving DecidableEq

/-- Row of the `chats` table. -/
structure Chat where
  id : String
  userId : String
  title : String
  updatedAt : Nat
deriving DecidableEq

/-- Row of the `messages` table; `id` is the database-assigned key. -/
structure MessageRow where
  id : Nat
  chatId : String
  role : String
  parts : String
  order : Nat
deriving DecidableEq

/-- Row of the `streams` table. -/
structure StreamRow where
  id : String
  chatId : String
  createdAt : Nat
deriving DecidableEq

/-- An input message as supplied by the caller of `upsertChat`: the
`role`/`parts` projection of the ai-sdk `Message` (`parts` is opaque to
the store and is modelled as its serialization). -/
structure Msg where
  role : String
  parts : String
deriving DecidableEq

/-- The durable store: one record holding all tables. `nextMessageId`
models the database-generated primary keys of `messages`. -/
structure DB where
  users : List UserRow
  userRequests : List UserRequestRow
  chats : List Chat
  messages : List MessageRow
  streams : List StreamRow
  nextMessageId : Nat
deriving DecidableEq

/-! ## RateLimiter (`queries.ts`) -/

/-- `DAILY_REQUEST_LIMIT` from `queries.ts`. -/
def DAILY_REQUEST_LIMIT : Nat := 50

/-- The `limit` field of an admission check: `Infinity` for admins,
a finite bound otherwise. -/
inductive RateLimitValue where
  | unbounded : RateLimitValue
  | finite : Nat → RateLimitValue
deriving DecidableEq

/-- Result shape of `canUserMakeRequest`. -/
structure RateCheck where
  allowed : Bool
  reason : Option String
  requestsToday : Nat
  limit : RateLimitValue
deriving DecidableEq

/-- `isUserAdmin`: select `isAdmin` from `users` where `id = userId`
(limit 1), defaulting to `false` when the user is unknown. -/
def isUserAdmin (db : DB) (userId : String) : Bool :=
  match db.users.find? (fun u => u.id == userId) with
  | some u => u.isAdmin
  | none => false

/-- `today.setHours(0, 0, 0, 0)`: the start of the local day of `t`. -/
def startOfDay (t : LocalInstant) : LocalInstant :=
  { day := t.day, msOfDay := 0 }

/-- `getUserRequestCountToday`: count `user_requests` rows of `userId`
whose `requestDate` is at or after the start of the current local day. -/
def getUserRequestCountToday (db : DB) (now : LocalInstant) (userId : String) : Nat :=
  (db.userRequests.filter
    (fun r => r.userId == userId && LocalInstant.le (startOfDay now) r.requestDate)).length

/-- `canUserMakeRequest`: the admission check. The source function only
issues SELECT queries, so the embedding returns the store unchanged next
to the check result. -/
def canUserMakeRequest (db : DB) (now : LocalInstant) (userId : String) :
    DB × RateCheck :=
  if isUserAdmin db userId then
    (db, { allowed := true, reason := none, requestsToday := 0,
           limit := RateLimitValue.unbounded })
  else
    let requestsToday := getUserRequestCountToday db now userId
    if DAILY_REQUEST_LIMIT ≤ requestsToday then
      (db, { allowed := false,
             reason := some ("Daily limit of " ++ toString DAILY_REQUEST_LIMIT ++
               " requests exceeded. You have made " ++ toString requestsToday ++
               " requests today."),
             requestsToday := requestsToday,
             limit := RateLimitValue.finite DAILY_REQUEST_LIMIT })
    else
      (db, { allowed := true, reason := none, requestsToday := requestsToday,
             limit := RateLimitValue.finite DAILY_REQUEST_LIMIT })

/-! ## ChatStore (`queries.ts`) -/

/-- Select the chat row with the given id
(`where eq(chats.id, chatId) limit 1`). -/
def findChat (db : DB) (chatId : String) : Option Chat :=
  db.chats.find? (fun c => c.id == chatId)

/-- Step (1) of the upsert transaction: insert the chat row or, on
conflict on `chats.id`, update only `title` and `updatedAt`; returns the
resulting row (`.returning()`). -/
def chatRowUpsert (db : DB) (now : Nat) (userId chatId title : String) :
    DB × Chat :=
  match findChat db chatId with
  | some c =>
      let c2 : Chat := { c with title := title, updatedAt := now }
      ({ db with chats := db.chats.map (fun x => if x.id == chatId then c2 else x) }, c2)
  | none =>
      let c2 : Chat := { id := chatId, userId := userId, title := title, updatedAt := now }
      ({ db with chats := db.chats ++ [c2] }, c2)

/-- Step (2): delete all `messages` rows of the chat. -/
def deleteChatMessages (db : DB) (chatId : String) : DB :=
  { db with messages := db.messages.filter (fun m => !(m.chatId == chatId)) }

/-- The rows built by `messageList.map((message, index) => ...)`:
`order` is the zero-based position in the supplied list; `id` is the
next database-assigned key. -/
def messageValues (chatId : String) (baseId idx : Nat) : List Msg → List MessageRow
  | [] => []
  | m :: ms =>
      { id := baseId + idx, chatId := chatId, role := m.role,
        parts := m.parts, order := idx } :: messageValues chatId baseId (idx + 1) ms

/-- `tx.insert(messages).values(rows)`: the driver rejects an empty
values list; otherwise the rows are appended to the table. -/
def insertMessages (db : DB) (rows : List MessageRow) : Except String DB :=
  if rows.isEmpty then Except.error "values() must be called with at least one value"
  else Except.ok { db with messages := db.messages ++ rows }

/-- Body of the `db.transaction` block of `upsertChat`: chat-row upsert,
delete of the old messages, then the insert of the new ones guarded by
`messageList.length > 0`. -/
def upsertChatTx (db : DB) (now : Nat) (userId chatId title : String)
    (msgs : List Msg) : Except String (DB × Chat) :=
  let r := chatRowUpsert db now userId chatId title
  let db2 := deleteChatMessages r.1 chatId
  let rows := messageValues chatId db2.nextMessageId 0 msgs
  if 0 < msgs.length then
    match insertMessages { db2 with nextMessageId := db2.nextMessageId + msgs.length } rows with
    | Except.ok db3 => Except.ok (db3, r.2)
    | Except.error e => Except.error e
  else
    Except.ok (db2, r.2)

/-- `upsertChat`: the ownership check runs outside the transaction and
throws without touching any row; then the transactional replacement
runs. An error from the transaction rolls the store back, which the
`Except.error` case models: no new store is produced. -/
def upsertChat (db : DB) (now : Nat) (userId chatId title : String)
    (msgs : List Msg) : Except String (DB × Chat) :=
  match findChat db chatId with
  | some c =>
      if c.userId == userId then upsertChatTx db now userId chatId title msgs
      else Except.error "Chat does not belong to the logged in user"
  | none => upsertChatTx db now userId chatId title msgs

/-- The store a reader sees after an `upsertChat` call: the committed
store on success, the unchanged store after a rollback. -/
def applyUpsert (db : DB) (now : Nat) (userId chatId title : String)
    (msgs : List Msg) : DB :=
  match upsertChat db now userId chatId title msgs with
  | Except.ok p => p.1
  | Except.error _ => db

/-- `upsertChatTx` with a failure injected after `k` completed steps
(`k = 0`: before the chat-row upsert; `k = 1`: after it; `k = 2`:
between the delete and the insert; `k ≥ 3`: no injected failure). -/
def upsertChatTxFaulty (k : Nat) (db : DB) (now : Nat)
    (userId chatId title : String) (msgs : List Msg) : Except String (DB × Chat) :=
  if k = 0 then Except.error "injected failure" else
  let r := chatRowUpsert db now userId chatId title
  if k = 1 then Except.error "injected failure" else
  let db2 := deleteChatMessages r.1 chatId
  if k = 2 then Except.error "injected failure" else
  let rows := messageValues chatId db2.nextMessageId 0 msgs
  if 0 < msgs.length then
    match insertMessages { db2 with nextMessageId := db2.nextMessageId + msgs.length } rows with
    | Except.ok db3 => Except.ok (db3, r.2)
    | Except.error e => Except.error e
  else
    Except.ok (db2, r.2)

/-- The store a reader sees after an `upsertChat` call whose transaction
failed after `k` steps: the `db.transaction` rollback restores the
pre-call store on every error path. -/
def applyUpsertFaulty (k : Nat) (db : DB) (now : Nat)
    (userId chatId title : String) (msgs : List Msg) : DB :=
  match findChat db chatId with
  | some c =>
      if c.userId == userId then
        match upsertChatTxFaulty k db now userId chatId title msgs with
        | Except.ok p => p.1
        | Except.error _ => db
      else db
  | none =>
      match upsertChatTxFaulty k db now userId chatId title msgs with
      | Except.ok p => p.1
      | Except.error _ => db

/-- A message as returned by `getChat` (`content` is set to `""`). -/
structure OutMsg where
  id : Nat
  role : String
  parts : String
  content : String
deriving DecidableEq

/-- Insertion step of the `orderBy(messages.order)` sort. -/
def insertByOrder (m : MessageRow) : List MessageRow → List MessageRow
  | [] => [m]
  | x :: xs =>
      if m.order ≤ x.order then m :: x :: xs else x :: insertByOrder m xs

/-- `orderBy(messages.order)`: sort message rows by ascending `order`. -/
def sortByOrder : List MessageRow → List MessageRow
  | [] => []
  | x :: xs => insertByOrder x (sortByOrder xs)

/-- `getChat`: the chat row with this id owned by `userId` (or `none`),
with its message rows sorted by ascending `order` and mapped back to the
ai-sdk shape. -/
def getChat (db : DB) (chatId userId : String) : Option (Chat × List OutMsg) :=
  match db.chats.find? (fun c => c.id == chatId && c.userId == userId) with
  | none => none
  | some c =>
      let rows := sortByOrder (db.messages.filter (fun m => m.chatId == chatId))
      some (c, rows.map (fun m =>
        { id := m.id, role := m.role, parts := m.parts, content := "" }))

/-! ## StreamRegistry (`appendStreamId` / `getStreamIds`) -/

/-- `appendStreamId`: insert one `streams` row. The primary key on
`streams.id` makes a duplicate stream id fail; `createdAt` takes the
database default current instant. -/
def appendStreamId (db : DB) (now : Nat) (chatId streamId : String) :
    Except String DB :=
  if db.streams.any (fun s => s.id == streamId) then
    Except.error "duplicate stream id"
  else
    Except.ok { db with
      streams := db.streams ++ [{ id := streamId, chatId := chatId, createdAt := now }] }

/-- Insertion step of the `desc(streams.createdAt)` sort. -/
def insertByCreatedDesc (s : StreamRow) : List StreamRow → List StreamRow
  | [] => [s]
  | x :: xs =>
      if x.createdAt < s.createdAt then s :: x :: xs else x :: insertByCreatedDesc s xs

/-- `desc(streams.createdAt)`: sort stream rows newest first. -/
def sortByCreatedDesc : List StreamRow → List StreamRow
  | [] => []
  | x :: xs => insertByCreatedDesc x (sortByCreatedDesc xs)

/-- `getStreamIds`: all stream ids of the chat ordered newest first,
together with `streamResult[0]?.id`. -/
def getStreamIds (db : DB) (chatId : String) : List String × Option String :=
  let ids := (sortByCreatedDesc (db.streams.filter (fun s => s.chatId == chatId))).map
    (fun s => s.id)
  (ids, ids.head?)

/-! ## CacheLayer -/

/-- One cache entry: key, stored value, absolute expiry instant. -/
structure CacheEntry (α β : Type) where
  key : α
  value : β
  expiresAt : Nat
deriving DecidableEq

/-- Modelled from the spec: the repository's `cacheWithRedis` wrapper
(its implementation in `src/server/redis/redis.ts` is not among the
sources here; only its caller in `app/api/chat/route.ts` is). Per the
spec: on call, when a non-expired entry exists under the key, return its
stored result without invoking the wrapped operation; on miss or expiry,
invoke it, store the result with a fixed time-to-live, and return it.
The result records the value, the cache state after the call, and
whether the wrapped operation was invoked. -/
def cacheWithRedis {α β : Type} [DecidableEq α] (f : α → β) (ttl : Nat)
    (entries : List (CacheEntry α β)) (now : Nat) (x : α) :
    β × List (CacheEntry α β) × Bool :=
  match entries.find? (fun e => decide (e.key = x)) with
  | some e =>
      if now < e.expiresAt then (e.value, entries, false)
      else
        (f x, entries.filter (fun e2 => !(decide (e2.key = x))) ++
          [{ key := x, value := f x, expiresAt := now + ttl }], true)
  | none =>
      (f x, entries.filter (fun e2 => !(decide (e2.key = x))) ++
        [{ key := x, value := f x, expiresAt := now + ttl }], true)

/-! ## Observables used by the statements -/

/-- The `messages` rows a reader sees for one chat. -/
def messagesOfChat (db : DB) (chatId : String) : List MessageRow :=
  db.messages.filter (fun m => m.chatId == chatId)

/-- Precondition under which the ownership check of `upsertChat` passes:
the chat is new, or already owned by the caller. -/
def ownershipOk (db : DB) (userId chatId : String) : Bool :=
  match findChat db chatId with
  | some c => c.userId == userId
  | none => true

/-- Adjacent-pairs check that message rows are ascending in `order`. -/
def isSortedByOrder : List MessageRow → Bool
  | [] => true
  | [_] => true
  | x :: y :: rest => decide (x.order ≤ y.order) && isSortedByOrder (y :: rest)

/-- The `(role, parts)` projection of a stored message row. -/
def rowPair (m : MessageRow) : String × String := (m.role, m.parts)

/-- The `(role, parts)` projection of an input message. -/
def msgPair (m : Msg) : String × String := (m.role, m.parts)

/-- The `(role, parts)` projection of a `getChat` output message. -/
def outPair (m : OutMsg) : String × String := (m.role, m.parts)

/-! ## Concrete stores and inputs used by the witness statements -/

/-- The empty store. -/
def dbEmpty : DB :=
  { users := [], userRequests := [], chats := [], messages := [],
    streams := [], nextMessageId := 0 }

/-- A concrete user message. -/
def msgU : Msg := { role := "user", parts := "Hello" }

/-- A concrete assistant message. -/
def msgA : Msg := { role := "assistant", parts := "Hi there" }

/-- A concrete pre-existing chat row owned by `"u1"`. -/
def chatRowW : Chat := { id := "c1", userId := "u1", title := "t0", updatedAt := 3 }

/-- A concrete stored message row of `chatRowW`. -/
def msgRowW : MessageRow :=
  { id := 0, chatId := "c1", role := "user", parts := "Hello", order := 0 }

/-- A store holding `chatRowW` and one message row for it. -/
def dbOwnedW : DB :=
  { dbEmpty with chats := [chatRowW], messages := [msgRowW], nextMessageId := 1 }

/-- A concrete request row of user `"u1"` made during day 10. -/
def reqW : UserRequestRow :=
  { userId := "u1", endpoint := "/api/chat", requestDate := { day := 10, msOfDay := 5 } }

/-- A store with a non-admin `"u1"` at exactly the daily limit, and an
admin `"adm"`. -/
def dbRateW : DB :=
  { dbEmpty with
    users := [{ id := "u1", isAdmin := false }, { id := "adm", isAdmin := true }],
    userRequests := List.replicate 50 reqW }

/-- A concrete admission instant during day 10. -/
def nowW : LocalInstant := { day := 10, msOfDay := 6 }

/-- A request row lying exactly on the local-midnight boundary of day 10. -/
def reqBoundaryW : UserRequestRow :=
  { userId := "u1", endpoint := "/api/chat", requestDate := { day := 10, msOfDay := 0 } }

/-- A store whose only request row is `reqBoundaryW`. -/
def dbBoundaryW : DB := { dbEmpty with userRequests := [reqBoundaryW] }

/-! ## Helper lemmas on lists -/

/-- Searching an append when the left part has no hit. -/
theorem find_append_of_none {α : Type} {p : α → Bool} {l1 : List α} (l2 : List α)
    (h : l1.find? p = none) : (l1 ++ l2).find? p = l2.find? p := by
  induction l1 with
  | nil => rfl
  | cons a as ih =>
    cases hpa : p a with
    | true => simp [List.find?, hpa] at h
    | false =>
      rw [List.find?, hpa] at h
      simpa [List.cons_append, List.find?, hpa] using ih h

/-- A weaker predicate also misses when a stronger one misses. -/
theorem find_none_of_imp {α : Type} {p q : α → Bool} {l : List α}
    (himp : ∀ x, q x = true → p x = true) (h : l.find? p = none) :
    l.find? q = none := by
  induction l with
  | nil => rfl
  | cons a as ih =>
    cases hpa : p a with
    | true => simp [List.find?, hpa] at h
    | false =>
      rw [List.find?, hpa] at h
      have hqa : q a = false := by
        cases hq : q a with
        | true => exact absurd (himp a hq) (by simp [hpa])
        | false => rfl
      rw [List.find?, hqa]
      exact ih h

/-- Rows kept by the negated filter never match the predicate. -/
theorem find_filter_not {α : Type} (p : α → Bool) (l : List α) :
    (l.filter (fun a => !(p a))).find? p = none := by
  induction l with
  | nil => rfl
  | cons a as ih =>
    cases hpa : p a with
    | true => simpa [List.filter, hpa] using ih
    | false => simpa [List.filter, hpa, List.find?] using ih

/-! ## Lemmas about the inserted message rows -/

/-- Every row built by `messageValues` carries the chat id, so the
reader-side filter keeps all of them. -/
theorem filter_messageValues (cid : String) (b : Nat) :
    ∀ (ms : List Msg) (i : Nat),
      (messageValues cid b i ms).filter (fun m => m.chatId == cid) =
        messageValues cid b i ms := by
  intro ms
  induction ms with
  | nil => intro i; rfl
  | cons m ms ih => intro i; simp [messageValues, List.filter, ih]

/-- Deleted rows stay invisible to the reader-side filter. -/
theorem filter_deleted (l : List MessageRow) (cid : String) :
    (l.filter (fun m => !(m.chatId == cid))).filter (fun m => m.chatId == cid) = [] := by
  induction l with
  | nil => rfl
  | cons m l ih =>
    cases hm : m.chatId == cid with
    | true => simpa [List.filter, hm] using ih
    | false => simpa [List.filter, hm] using ih

/-- The `order` column of the inserted rows is the position sequence. -/
theorem messageValues_map_order (cid : String) (b : Nat) :
    ∀ (ms : List Msg) (i : Nat),
      (messageValues cid b i ms).map (fun m => m.order) = List.range' i ms.length := by
  intro ms
  induction ms with
  | nil => intro i; rfl
  | cons m ms ih => intro i; simp [messageValues, List.range', ih]

/-- The inserted rows keep the caller-supplied `(role, parts)` pairs in
the caller's order. -/
theorem messageValues_map_pair (cid : String) (b : Nat) :
    ∀ (ms : List Msg) (i : Nat),
      (messageValues cid b i ms).map rowPair = ms.map msgPair := by
  intro ms
  induction ms with
  | nil => intro i; rfl
  | cons m ms ih => intro i; simp [messageValues, rowPair, msgPair, ih]

/-- The inserted rows are already ascending in `order`. -/
theorem messageValues_sorted (cid : String) (b : Nat) :
    ∀ (ms : List Msg) (i : Nat),
      isSortedByOrder (messageValues cid b i ms) = true := by
  intro ms
  induction ms with
  | nil => intro i; rfl
  | cons m ms ih =>
    intro i
    cases ms with
    | nil => rfl
    | cons m2 ms2 =>
      have h2 := ih (i + 1)
      simp [messageValues] at h2 ⊢
      simpa [isSortedByOrder, Nat.le_succ] using h2

/-- Sorting rows that are already ascending in `order` changes nothing. -/
theorem sortByOrder_eq_self :
    ∀ l : List MessageRow, isSortedByOrder l = true → sortByOrder l = l := by
  intro l
  induction l with
  | nil => intro _; rfl
  | cons x xs ih =>
    intro h
    cases xs with
    | nil => rfl
    | cons y r =>
      rw [isSortedByOrder, Bool.and_eq_true] at h
      have ihs := ih h.2
      simp only [sortByOrder] at ihs ⊢
      rw [ihs]
      simp [insertByOrder, of_decide_eq_true h.1]

/-! ## Lemmas about the chat-row upsert step -/

/-- The chat-row upsert touches no `messages` row. -/
theorem chatRowUpsert_messages (db : DB) (now : Nat) (u cid t : String) :
    ((chatRowUpsert db now u cid t).1).messages = db.messages := by
  cases hc : findChat db cid <;> simp [chatRowUpsert, hc]

/-- The chat-row upsert does not consume message keys. -/
theorem chatRowUpsert_nextMessageId (db : DB) (now : Nat) (u cid t : String) :
    ((chatRowUpsert db now u cid t).1).nextMessageId = db.nextMessageId := by
  cases hc : findChat db cid <;> simp [chatRowUpsert, hc]

/-- After replacing the matching chat row, a search by id finds the
replacement. -/
theorem find_chat_after_map (l : List Chat) (cid : String) (c c2 : Chat)
    (h : l.find? (fun x => x.id == cid) = some c) (hid : c2.id = c.id) :
    (l.map (fun x => if x.id == cid then c2 else x)).find? (fun x => x.id == cid) =
      some c2 := by
  induction l with
  | nil => simp [List.find?] at h
  | cons a as ih =>
    cases ha : a.id == cid with
    | true =>
      rw [List.find?, ha] at h
      have hac : a = c := by simpa using h
      have h2 : (c2.id == cid) = true := by
        rw [hid, ← hac]; exact ha
      simp [List.map, ha, List.find?, h2]
    | false =>
      rw [List.find?, ha] at h
      simpa [List.map, ha, List.find?] using ih h

/-- Same, for the owner-qualified search used by `getChat`. -/
theorem find_chat_q_after_map (l : List Chat) (cid u : String) (c c2 : Chat)
    (h : l.find? (fun x => x.id == cid) = some c) (hid : c2.id = c.id)
    (hu : (c2.userId == u) = true) :
    (l.map (fun x => if x.id == cid then c2 else x)).find?
      (fun x => x.id == cid && x.userId == u) = some c2 := by
  induction l with
  | nil => simp [List.find?] at h
  | cons a as ih =>
    cases ha : a.id == cid with
    | true =>
      rw [List.find?, ha] at h
      have hac : a = c := by simpa using h
      have h2 : (c2.id == cid) = true := by
        rw [hid, ← hac]; exact ha
      simp [List.map, ha, List.find?, h2, hu]
    | false =>
      rw [List.find?, ha] at h
      simpa [List.map, ha, List.find?] using ih h

/-- The transaction body always commits, producing the filtered-plus-
reinserted message table, the bumped key counter, and the upserted chat
row. -/
theorem upsertChatTx_eq (db : DB) (now : Nat) (u cid t : String) (msgs : List Msg) :
    upsertChatTx db now u cid t msgs =
      Except.ok
        ({ (chatRowUpsert db now u cid t).1 with
             messages := db.messages.filter (fun m => !(m.chatId == cid)) ++
               messageValues cid db.nextMessageId 0 msgs,
             nextMessageId := db.nextMessageId + msgs.length },
         (chatRowUpsert db now u cid t).2) := by
  cases msgs with
  | nil =>
    simp [upsertChatTx, deleteChatMessages, insertMessages, messageValues,
      chatRowUpsert_messages, chatRowUpsert_nextMessageId]
  | cons m ms =>
    simp [upsertChatTx, deleteChatMessages, insertMessages, messageValues,
      chatRowUpsert_messages, chatRowUpsert_nextMessageId]

/-- Master lemma: when the ownership check passes, `upsertChat` commits,
returns the chat row rewritten to the caller's title and timestamp, and
leaves exactly the freshly built message rows visible for the chat, which
`getChat` hands back in the caller's order. -/
theorem upsertChat_ok (db : DB) (now : Nat) (u cid t : String) (msgs : List Msg)
    (h : ownershipOk db u cid = true) :
    ∃ dbr : DB,
      upsertChat db now u cid t msgs =
        Except.ok (dbr, { id := cid, userId := u, title := t, updatedAt := now }) ∧
      applyUpsert db now u cid t msgs = dbr ∧
      messagesOfChat dbr cid = messageValues cid db.nextMessageId 0 msgs ∧
      findChat dbr cid = some { id := cid, userId := u, title := t, updatedAt := now } ∧
      getChat dbr cid u =
        some ({ id := cid, userId := u, title := t, updatedAt := now },
          (messageValues cid db.nextMessageId 0 msgs).map
            (fun m => { id := m.id, role := m.role, parts := m.parts, content := "" })) := by
  have htx := upsertChatTx_eq db now u cid t msgs
  unfold ownershipOk at h
  cases hc : findChat db cid with
  | none =>
    have hc' : db.chats.find? (fun c => c.id == cid) = none := hc
    have hcr : chatRowUpsert db now u cid t =
        ({ db with chats := db.chats ++
            [{ id := cid, userId := u, title := t, updatedAt := now }] },
         { id := cid, userId := u, title := t, updatedAt := now }) := by
      simp [chatRowUpsert, hc]
    rw [hcr] at htx
    have hup : upsertChat db now u cid t msgs = upsertChatTx db now u cid t msgs := by
      simp [upsertChat, hc]
    refine ⟨_, hup.trans htx, ?_, ?_, ?_, ?_⟩
    · simp [applyUpsert, hup, htx]
    · simp only [messagesOfChat]
      rw [List.filter_append, filter_deleted, filter_messageValues]
      simp
    · simp only [findChat]
      rw [find_append_of_none _ hc']
      simp [List.find?]
    · have hq : (db.chats ++
          [({ id := cid, userId := u, title := t, updatedAt := now } : Chat)]).find?
            (fun c => c.id == cid && c.userId == u) =
          some { id := cid, userId := u, title := t, updatedAt := now } := by
        have hqn : db.chats.find? (fun c => c.id == cid && c.userId == u) = none :=
          find_none_of_imp (fun x hx => (Bool.and_eq_true _ _ |>.mp hx).1) hc'
        rw [find_append_of_none _ hqn]
        simp [List.find?]
      simp only [getChat, hq]
      rw [List.filter_append, filter_deleted, filter_messageValues]
      rw [List.nil_append, sortByOrder_eq_self _ (messageValues_sorted cid db.nextMessageId msgs 0)]
  | some c =>
    rw [hc] at h
    simp only [] at h
    have hc' : db.chats.find? (fun c => c.id == cid) = some c := hc
    have hpc := List.find?_some hc'
    simp only [beq_iff_eq] at hpc
    have hcid : c.id = cid := hpc
    have hcu : c.userId = u := eq_of_beq h
    have hcr : chatRowUpsert db now u cid t =
        ({ db with chats := db.chats.map (fun x => if x.id == cid then
            { id := cid, userId := u, title := t, updatedAt := now } else x) },
         { id := cid, userId := u, title := t, updatedAt := now }) := by
      simp [chatRowUpsert, hc, hcid, hcu]
    rw [hcr] at htx
    have hup : upsertChat db now u cid t msgs = upsertChatTx db now u cid t msgs := by
      simp [upsertChat, hc, h]
    refine ⟨_, hup.trans htx, ?_, ?_, ?_, ?_⟩
    · simp [applyUpsert, hup, htx]
    · simp only [messagesOfChat]
      rw [List.filter_append, filter_deleted, filter_messageValues]
      simp
    · simp only [findChat]
      exact find_chat_after_map db.chats cid c _ hc' hcid.symm
    · have hq := find_chat_q_after_map db.chats cid u c
        { id := cid, userId := u, title := t, updatedAt := now } hc' hcid.symm (by simp)
      simp only [getChat, hq]
      rw [List.filter_append, filter_deleted, filter_messageValues]
      rw [List.nil_append, sortByOrder_eq_self _ (messageValues_sorted cid db.nextMessageId msgs 0)]

/-- A failure injected at any of the three points inside the transaction
makes the transaction report an error. -/
theorem upsertChatTxFaulty_err (k : Nat) (hk : k < 3) (db : DB) (now : Nat)
    (u cid t : String) (msgs : List Msg) :
    upsertChatTxFaulty k db now u cid t msgs = Except.error "injected failure" := by
  match k, hk with
  | 0, _ => simp [upsertChatTxFaulty]
  | 1, _ => simp [upsertChatTxFaulty]
  | 2, _ => simp [upsertChatTxFaulty]

/-- Past the last injection point the faulty transaction is the real one. -/
theorem upsertChatTxFaulty_eq_tx (k : Nat) (hk : 3 ≤ k) (db : DB) (now : Nat)
    (u cid t : String) (msgs : List Msg) :
    upsertChatTxFaulty k db now u cid t msgs = upsertChatTx db now u cid t msgs := by
  match k, hk with
  | n + 3, _ => simp [upsertChatTxFaulty, upsertChatTx]

/-- Rollback: when the injected failure fires, the reader still sees the
pre-call store. -/
theorem applyUpsertFaulty_rollback (k : Nat) (hk : k < 3) (db : DB) (now : Nat)
    (u cid t : String) (msgs : List Msg) :
    applyUpsertFaulty k db now u cid t msgs = db := by
  cases hc : findChat db cid with
  | none => simp [applyUpsertFaulty, hc, upsertChatTxFaulty_err k hk]
  | some c =>
    cases hcu : c.userId == u <;>
      simp [applyUpsertFaulty, hc, hcu, upsertChatTxFaulty_err k hk]

/-- Commit: without an injected failure the faulty run equals the real one. -/
theorem applyUpsertFaulty_commit (k : Nat) (hk : 3 ≤ k) (db : DB) (now : Nat)
    (u cid t : String) (msgs : List Msg) :
    applyUpsertFaulty k db now u cid t msgs = applyUpsert db now u cid t msgs := by
  cases hc : findChat db cid with
  | none =>
    simp [applyUpsertFaulty, applyUpsert, upsertChat, hc, upsertChatTxFaulty_eq_tx k hk]
  | some c =>
    cases hcu : c.userId == u <;>
      simp [applyUpsertFaulty, applyUpsert, upsertChat, hc, hcu,
        upsertChatTxFaulty_eq_tx k hk]

/-- `getChat`-shaped projection of the inserted rows back to the caller
pairs. -/
theorem messageValues_out_pair (cid : String) (b : Nat) :
    ∀ (ms : List Msg) (i : Nat),
      ((messageValues cid b i ms).map (fun m =>
        ({ id := m.id, role := m.role, parts := m.parts, content := "" } : OutMsg))).map
          outPair = ms.map msgPair := by
  intro ms
  induction ms with
  | nil => intro i; rfl
  | cons m ms ih => intro i; simp [messageValues, outPair, msgPair, ih]

/-! ## Claim theorems -/

/-- C1: `upsertChat` with list A and then list B is atomic: the second
upsert leaves `getChat` returning exactly B, and for a failure injected
after any number `k` of transaction steps (including between the delete
and the insert, `k = 2`) a reader sees either the full old message set
or the full new one — never a union, a partial set, or a deletion
without replacement. -/
theorem upsert_atomic_replace (db : DB) (now1 now2 : Nat) (u cid t1 t2 : String)
    (A B : List Msg) (k : Nat) (h : ownershipOk db u cid = true) :
    ∃ db1 ch1, upsertChat db now1 u cid t1 A = Except.ok (db1, ch1) ∧
      (∃ db2 ch2, upsertChat db1 now2 u cid t2 B = Except.ok (db2, ch2) ∧
        (getChat db2 cid u).map (fun p => p.2.map outPair) = some (B.map msgPair)) ∧
      (messagesOfChat (applyUpsertFaulty k db1 now2 u cid t2 B) cid =
          messagesOfChat db1 cid ∨
        (messagesOfChat (applyUpsertFaulty k db1 now2 u cid t2 B) cid).map rowPair =
          B.map msgPair) := by
  obtain ⟨db1, h1, ha1, hm1, hf1, hg1⟩ := upsertChat_ok db now1 u cid t1 A h
  have hown1 : ownershipOk db1 u cid = true := by
    unfold ownershipOk
    rw [hf1]
    simp
  obtain ⟨db2, h2, ha2, hm2, hf2, hg2⟩ := upsertChat_ok db1 now2 u cid t2 B hown1
  refine ⟨db1, _, h1, ⟨db2, _, h2, ?_⟩, ?_⟩
  · rw [hg2]
    simp only [Option.map_some']
    rw [messageValues_out_pair]
  · by_cases hk : k < 3
    · left
      rw [applyUpsertFaulty_rollback k hk]
    · right
      rw [applyUpsertFaulty_commit k (by omega), ha2, hm2, messageValues_map_pair]

/-- C2: a chat's owner never changes: upserting an existing chat under a
different user fails with the ownership-violation error and leaves the
store — chat rows and message rows alike — exactly as before. -/
theorem upsert_ownership_guard (db : DB) (now : Nat) (u cid t : String)
    (msgs : List Msg) (c : Chat) (hc : findChat db cid = some c) (hu : c.userId ≠ u) :
    upsertChat db now u cid t msgs =
        Except.error "Chat does not belong to the logged in user" ∧
      applyUpsert db now u cid t msgs = db := by
  have hcu : (c.userId == u) = false := by simp [hu]
  constructor
  · simp [upsertChat, hc, hcu]
  · simp [applyUpsert, upsertChat, hc, hcu]

/-- C3: for a non-admin, `canUserMakeRequest` works from the count of
the user's requests dated at or after the start of the current local
day, with the fixed limit 50: at or above the limit it denies, reporting
the count and a reason embedding both the limit and the count; strictly
below the limit it allows. It issues no insert: the store comes back
unchanged. -/
theorem admit_daily_limit (db : DB) (now : LocalInstant) (u : String)
    (hadm : isUserAdmin db u = false) :
    DAILY_REQUEST_LIMIT = 50 ∧
    (canUserMakeRequest db now u).1 = db ∧
    getUserRequestCountToday db now u =
      (db.userRequests.filter (fun r => r.userId == u &&
        LocalInstant.le (startOfDay now) r.requestDate)).length ∧
    (DAILY_REQUEST_LIMIT ≤ getUserRequestCountToday db now u →
      (canUserMakeRequest db now u).2.allowed = false ∧
      (canUserMakeRequest db now u).2.requestsToday =
        getUserRequestCountToday db now u ∧
      (canUserMakeRequest db now u).2.limit = RateLimitValue.finite DAILY_REQUEST_LIMIT ∧
      (canUserMakeRequest db now u).2.reason =
        some ("Daily limit of " ++ toString DAILY_REQUEST_LIMIT ++
          " requests exceeded. You have made " ++
          toString (getUserRequestCountToday db now u) ++ " requests today.")) ∧
    (getUserRequestCountToday db now u < DAILY_REQUEST_LIMIT →
      (canUserMakeRequest db now u).2.allowed = true) := by
  refine ⟨rfl, ?_, rfl, ?_, ?_⟩
  · simp only [canUserMakeRequest, hadm]
    split
    · rfl
    · split <;> rfl
  · intro hge
    simp [canUserMakeRequest, hadm, hge]
  · intro hlt
    have hn : ¬ (DAILY_REQUEST_LIMIT ≤ getUserRequestCountToday db now u) := by omega
    simp [canUserMakeRequest, hadm, hn]

/-- C4: a successful upsert followed by `getChat` returns exactly the
supplied messages in the caller's order; the stored `order` values are
exactly `0, 1, ..., n-1` and ascending. -/
theorem upsert_getChat_roundtrip (db : DB) (now : Nat) (u cid t : String)
    (msgs : List Msg) (h : ownershipOk db u cid = true) :
    ∃ db1 ch, upsertChat db now u cid t msgs = Except.ok (db1, ch) ∧
      (messagesOfChat db1 cid).map (fun m => m.order) = List.range msgs.length ∧
      isSortedByOrder (messagesOfChat db1 cid) = true ∧
      (getChat db1 cid u).map (fun p => p.2.map outPair) = some (msgs.map msgPair) := by
  obtain ⟨db1, h1, ha1, hm1, hf1, hg1⟩ := upsertChat_ok db now u cid t msgs h
  refine ⟨db1, _, h1, ?_, ?_, ?_⟩
  · rw [hm1, messageValues_map_order, List.range_eq_range']
  · rw [hm1]
    exact messageValues_sorted cid db.nextMessageId msgs 0
  · rw [hg1]
    simp only [Option.map_some']
    rw [messageValues_out_pair]

/-- C5: an admin is always admitted, with `requestsToday` reported as 0
and the limit reported as unbounded, whatever the recorded requests are;
the store comes back unchanged. -/
theorem admit_admin_bypass (db : DB) (now : LocalInstant) (u : String)
    (hadm : isUserAdmin db u = true) :
    canUserMakeRequest db now u =
      (db, { allowed := true, reason := none, requestsToday := 0,
             limit := RateLimitValue.unbounded }) := by
  simp [canUserMakeRequest, hadm]

/-- C6: the memoizing wrapper invokes the wrapped operation on the first
call for a key, serves a second structurally identical call inside the
time-to-live from the stored entry without invoking it again, and after
expiry invokes it again, storing the fresh result. -/
theorem memoize_ttl_hit_expiry {α β : Type} [DecidableEq α] (f : α → β) (ttl : Nat)
    (entries : List (CacheEntry α β)) (now1 now2 now3 : Nat) (x : α)
    (hmiss : entries.find? (fun e => decide (e.key = x)) = none)
    (hhit : now2 < now1 + ttl) (hexp : now1 + ttl ≤ now3) :
    ∃ st1 : List (CacheEntry α β),
      cacheWithRedis f ttl entries now1 x = (f x, st1, true) ∧
      st1.find? (fun e => decide (e.key = x)) =
        some { key := x, value := f x, expiresAt := now1 + ttl } ∧
      cacheWithRedis f ttl st1 now2 x = (f x, st1, false) ∧
      ∃ st3 : List (CacheEntry α β),
        cacheWithRedis f ttl st1 now3 x = (f x, st3, true) ∧
        st3.find? (fun e => decide (e.key = x)) =
          some { key := x, value := f x, expiresAt := now3 + ttl } := by
  have hfind1 : (entries.filter (fun e2 => !(decide (e2.key = x))) ++
      [({ key := x, value := f x, expiresAt := now1 + ttl } : CacheEntry α β)]).find?
        (fun e => decide (e.key = x)) =
      some { key := x, value := f x, expiresAt := now1 + ttl } := by
    rw [find_append_of_none _ (find_filter_not _ entries)]
    simp [List.find?]
  refine ⟨_, ?_, hfind1, ?_, ?_⟩
  · simp [cacheWithRedis, hmiss]
  · simp [cacheWithRedis, hfind1, hhit]
  · refine ⟨(entries.filter (fun e2 => !(decide (e2.key = x))) ++
      [({ key := x, value := f x, expiresAt := now1 + ttl } : CacheEntry α β)]).filter
        (fun e2 => !(decide (e2.key = x))) ++
      [{ key := x, value := f x, expiresAt := now3 + ttl }], ?_, ?_⟩
    · simp [cacheWithRedis, hfind1, Nat.not_lt.mpr hexp]
    · rw [find_append_of_none _ (find_filter_not _ _)]
      simp [List.find?]

/-- C7: appending stream s1 and then, later, s2 for a chat with no prior
streams makes `getStreamIds` return the ids newest first, `[s2, s1]`,
with `s2` the most recent; each append is a plain insert guarded only by
the uniqueness of the stream id itself. -/
theorem append_stream_order (db : DB) (cid s1 s2 : String) (t1 t2 : Nat)
    (hempty : db.streams.filter (fun s => s.chatId == cid) = [])
    (hf1 : db.streams.any (fun s => s.id == s1) = false)
    (hf2 : db.streams.any (fun s => s.id == s2) = false)
    (hne : s1 ≠ s2) (ht : t1 < t2) :
    ∃ db1 db2, appendStreamId db t1 cid s1 = Except.ok db1 ∧
      appendStreamId db1 t2 cid s2 = Except.ok db2 ∧
      getStreamIds db2 cid = ([s2, s1], some s2) := by
  have hnt : ¬ (t2 < t1) := by omega
  refine ⟨{ db with streams := db.streams ++ [{ id := s1, chatId := cid, createdAt := t1 }] },
    { db with streams := (db.streams ++ [{ id := s1, chatId := cid, createdAt := t1 }]) ++
        [{ id := s2, chatId := cid, createdAt := t2 }] }, ?_, ?_, ?_⟩
  · simp [appendStreamId, hf1]
  · simp [appendStreamId, List.any_append, hf2, hne, Ne.symm hne]
  · simp only [getStreamIds, List.filter_append, hempty]
    simp [sortByCreatedDesc, insertByCreatedDesc, hnt]

/-- C8: upserting an existing chat owned by the caller rewrites the chat
row itself: afterwards the stored row carries the supplied title and the
refreshed timestamp. -/
theorem upsert_updates_title (db : DB) (now : Nat) (u cid t : String)
    (msgs : List Msg) (c : Chat) (hc : findChat db cid = some c) (hu : c.userId = u) :
    ∃ db1, upsertChat db now u cid t msgs =
        Except.ok (db1, { id := cid, userId := u, title := t, updatedAt := now }) ∧
      findChat db1 cid = some { id := cid, userId := u, title := t, updatedAt := now } := by
  have h : ownershipOk db u cid = true := by
    unfold ownershipOk
    rw [hc]
    simp [hu]
  obtain ⟨db1, h1, _, _, hf1, _⟩ := upsertChat_ok db now u cid t msgs h
  exact ⟨db1, h1, hf1⟩

/-- C9: the request-count day boundary is the admission instant's local
midnight, inclusive on the new-day side: a request dated exactly at the
start of the current local day is counted, one strictly before local
midnight is not; the admission check reports exactly this count. -/
theorem request_count_day_boundary (db : DB) (now : LocalInstant) (u : String)
    (r : UserRequestRow) (hu : r.userId = u) (hdb : db.userRequests = [r]) :
    startOfDay now = { day := now.day, msOfDay := 0 } ∧
    (r.requestDate = { day := now.day, msOfDay := 0 } →
      getUserRequestCountToday db now u = 1) ∧
    (LocalInstant.lt r.requestDate { day := now.day, msOfDay := 0 } = true →
      getUserRequestCountToday db now u = 0) ∧
    (isUserAdmin db u = false →
      (canUserMakeRequest db now u).2.requestsToday =
        getUserRequestCountToday db now u) := by
  refine ⟨rfl, ?_, ?_, ?_⟩
  · intro hb
    simp [getUserRequestCountToday, hdb, hu, startOfDay, hb, LocalInstant.le]
  · intro hlt
    have hday : r.requestDate.day < now.day := by
      simp [LocalInstant.lt] at hlt
      omega
    have hle : LocalInstant.le (startOfDay now) r.requestDate = false := by
      simp [LocalInstant.le, startOfDay]
      omega
    simp [getUserRequestCountToday, hdb, hu, hle]
  · intro hadm
    simp only [canUserMakeRequest, hadm]
    rw [if_neg (by simp)]
    split <;> rfl

/-- C10: upserting with an empty message list succeeds (the empty insert
is guarded against), leaving the chat present with zero message rows. -/
theorem upsert_empty_messages (db : DB) (now : Nat) (u cid t : String)
    (h : ownershipOk db u cid = true) :
    ∃ db1 ch, upsertChat db now u cid t [] = Except.ok (db1, ch) ∧
      (findChat db1 cid).isSome = true ∧
      messagesOfChat db1 cid = [] := by
  obtain ⟨db1, h1, _, hm1, hf1, _⟩ := upsertChat_ok db now u cid t [] h
  refine ⟨db1, _, h1, ?_, ?_⟩
  · rw [hf1]
    rfl
  · rw [hm1]
    rfl

/-! ## Witnesses: each theorem applied at a concrete input -/

/-- Witness for C1 at a fresh chat, with the failure injected between
the delete and the insert (`k = 2`). -/
theorem upsert_atomic_replace_witness :
    ownershipOk dbEmpty "u1" "c1" = true ∧
    (∃ db1 ch1, upsertChat dbEmpty 1 "u1" "c1" "T" [msgU] = Except.ok (db1, ch1) ∧
      (∃ db2 ch2, upsertChat db1 2 "u1" "c1" "T" [msgU, msgA] = Except.ok (db2, ch2) ∧
        (getChat db2 "c1" "u1").map (fun p => p.2.map outPair) =
          some ([msgU, msgA].map msgPair)) ∧
      (messagesOfChat (applyUpsertFaulty 2 db1 2 "u1" "c1" "T" [msgU, msgA]) "c1" =
          messagesOfChat db1 "c1" ∨
        (messagesOfChat (applyUpsertFaulty 2 db1 2 "u1" "c1" "T" [msgU, msgA]) "c1").map
          rowPair = [msgU, msgA].map msgPair)) :=
  ⟨by decide,
    upsert_atomic_replace dbEmpty 1 2 "u1" "c1" "T" "T" [msgU] [msgU, msgA] 2 (by decide)⟩

/-- Witness for C2: upserting `"c1"` (owned by `"u1"`) as `"u2"` fails
and mutates nothing. -/
theorem upsert_ownership_guard_witness :
    findChat dbOwnedW "c1" = some chatRowW ∧ chatRowW.userId ≠ "u2" ∧
    (upsertChat dbOwnedW 5 "u2" "c1" "T" [msgU] =
        Except.error "Chat does not belong to the logged in user" ∧
      applyUpsert dbOwnedW 5 "u2" "c1" "T" [msgU] = dbOwnedW) :=
  ⟨by decide, by decide,
    upsert_ownership_guard dbOwnedW 5 "u2" "c1" "T" [msgU] chatRowW (by decide) (by decide)⟩

/-- Witness for C3 on a store where `"u1"` has exactly 50 requests today. -/
theorem admit_daily_limit_witness :
    isUserAdmin dbRateW "u1" = false ∧
    (DAILY_REQUEST_LIMIT = 50 ∧
    (canUserMakeRequest dbRateW nowW "u1").1 = dbRateW ∧
    getUserRequestCountToday dbRateW nowW "u1" =
      (dbRateW.userRequests.filter (fun r => r.userId == "u1" &&
        LocalInstant.le (startOfDay nowW) r.requestDate)).length ∧
    (DAILY_REQUEST_LIMIT ≤ getUserRequestCountToday dbRateW nowW "u1" →
      (canUserMakeRequest dbRateW nowW "u1").2.allowed = false ∧
      (canUserMakeRequest dbRateW nowW "u1").2.requestsToday =
        getUserRequestCountToday dbRateW nowW "u1" ∧
      (canUserMakeRequest dbRateW nowW "u1").2.limit =
        RateLimitValue.finite DAILY_REQUEST_LIMIT ∧
      (canUserMakeRequest dbRateW nowW "u1").2.reason =
        some ("Daily limit of " ++ toString DAILY_REQUEST_LIMIT ++
          " requests exceeded. You have made " ++
          toString (getUserRequestCountToday dbRateW nowW "u1") ++ " requests today.")) ∧
    (getUserRequestCountToday dbRateW nowW "u1" < DAILY_REQUEST_LIMIT →
      (canUserMakeRequest dbRateW nowW "u1").2.allowed = true)) :=
  ⟨by decide, admit_daily_limit dbRateW nowW "u1" (by decide)⟩

/-- Witness for C4 with a two-message list on a fresh chat. -/
theorem upsert_getChat_roundtrip_witness :
    ownershipOk dbEmpty "u1" "c1" = true ∧
    (∃ db1 ch, upsertChat dbEmpty 1 "u1" "c1" "T" [msgU, msgA] = Except.ok (db1, ch) ∧
      (messagesOfChat db1 "c1").map (fun m => m.order) =
        List.range ([msgU, msgA].length) ∧
      isSortedByOrder (messagesOfChat db1 "c1") = true ∧
      (getChat db1 "c1" "u1").map (fun p => p.2.map outPair) =
        some ([msgU, msgA].map msgPair)) :=
  ⟨by decide, upsert_getChat_roundtrip dbEmpty 1 "u1" "c1" "T" [msgU, msgA] (by decide)⟩

/-- Witness for C5: the admin `"adm"` is admitted on a store where 50
requests are recorded. -/
theorem admit_admin_bypass_witness :
    isUserAdmin dbRateW "adm" = true ∧
    canUserMakeRequest dbRateW nowW "adm" =
      (dbRateW, { allowed := true, reason := none, requestsToday := 0,
                  limit := RateLimitValue.unbounded }) :=
  ⟨by decide, admit_admin_bypass dbRateW nowW "adm" (by decide)⟩

/-- Witness for C6 with the successor function, time-to-live 5, calls at
instants 0, 4 (hit) and 5 (expired). -/
theorem memoize_ttl_hit_expiry_witness :
    (([] : List (CacheEntry Nat Nat)).find? (fun e => decide (e.key = 7)) = none) ∧
    (4 < 0 + 5) ∧ (0 + 5 ≤ 5) ∧
    (∃ st1 : List (CacheEntry Nat Nat),
      cacheWithRedis (fun n : Nat => n + 1) 5 [] 0 7 = (7 + 1, st1, true) ∧
      st1.find? (fun e => decide (e.key = 7)) =
        some { key := 7, value := 7 + 1, expiresAt := 0 + 5 } ∧
      cacheWithRedis (fun n : Nat => n + 1) 5 st1 4 7 = (7 + 1, st1, false) ∧
      ∃ st3 : List (CacheEntry Nat Nat),
        cacheWithRedis (fun n : Nat => n + 1) 5 st1 5 7 = (7 + 1, st3, true) ∧
        st3.find? (fun e => decide (e.key = 7)) =
          some { key := 7, value := 7 + 1, expiresAt := 5 + 5 }) :=
  ⟨by decide, by decide, by decide,
    memoize_ttl_hit_expiry (fun n : Nat => n + 1) 5 [] 0 4 5 7
      (by decide) (by decide) (by decide)⟩

/-- Witness for C7: two appends at instants 1 and 2 on the empty store. -/
theorem append_stream_order_witness :
    dbEmpty.streams.filter (fun s => s.chatId == "c1") = [] ∧
    dbEmpty.streams.any (fun s => s.id == "s1") = false ∧
    dbEmpty.streams.any (fun s => s.id == "s2") = false ∧
    "s1" ≠ "s2" ∧ 1 < 2 ∧
    (∃ db1 db2, appendStreamId dbEmpty 1 "c1" "s1" = Except.ok db1 ∧
      appendStreamId db1 2 "c1" "s2" = Except.ok db2 ∧
      getStreamIds db2 "c1" = (["s2", "s1"], some "s2")) :=
  ⟨by decide, by decide, by decide, by decide, by decide,
    append_stream_order dbEmpty "c1" "s1" "s2" 1 2
      (by decide) (by decide) (by decide) (by decide) (by decide)⟩

/-- Witness for C8: re-upserting the existing chat `"c1"` rewrites its
title and timestamp. -/
theorem upsert_updates_title_witness :
    findChat dbOwnedW "c1" = some chatRowW ∧ chatRowW.userId = "u1" ∧
    (∃ db1, upsertChat dbOwnedW 9 "u1" "c1" "T2" [msgU] =
        Except.ok (db1, { id := "c1", userId := "u1", title := "T2", updatedAt := 9 }) ∧
      findChat db1 "c1" =
        some { id := "c1", userId := "u1", title := "T2", updatedAt := 9 }) :=
  ⟨by decide, by decide,
    upsert_updates_title dbOwnedW 9 "u1" "c1" "T2" [msgU] chatRowW (by decide) (by decide)⟩

/-- Witness for C9 with a request dated exactly at the local midnight of
the admission day. -/
theorem request_count_day_boundary_witness :
    reqBoundaryW.userId = "u1" ∧ dbBoundaryW.userRequests = [reqBoundaryW] ∧
    (startOfDay nowW = { day := nowW.day, msOfDay := 0 } ∧
    (reqBoundaryW.requestDate = { day := nowW.day, msOfDay := 0 } →
      getUserRequestCountToday dbBoundaryW nowW "u1" = 1) ∧
    (LocalInstant.lt reqBoundaryW.requestDate { day := nowW.day, msOfDay := 0 } = true →
      getUserRequestCountToday dbBoundaryW nowW "u1" = 0) ∧
    (isUserAdmin dbBoundaryW "u1" = false →
      (canUserMakeRequest dbBoundaryW nowW "u1").2.requestsToday =
        getUserRequestCountToday dbBoundaryW nowW "u1")) :=
  ⟨by decide, by decide,
    request_count_day_boundary dbBoundaryW nowW "u1" reqBoundaryW (by decide) (by decide)⟩

/-- Witness for C10: an empty upsert on a fresh chat. -/
theorem upsert_empty_messages_witness :
    ownershipOk dbEmpty "u1" "c1" = true ∧
    (∃ db1 ch, upsertChat dbEmpty 1 "u1" "c1" "T" [] = Except.ok (db1, ch) ∧
      (findChat db1 "c1").isSome = true ∧
      messagesOfChat db1 "c1" = []) :=
  ⟨by decide, upsert_empty_messages dbEmpty 1 "u1" "c1" "T" (by decide)⟩

end AiHero
